import Mathlib

/-!
Verification of the radiative cooling simulation script
(src/radiative_cooling_simulation.py).

The script is a straight-line Colab notebook.  We embed its numeric core
shallowly over the rationals: the module-level parameters (lines 10-21),
the three derivative functions, the evaluation-grid construction, the
solution extraction, the cooling-rate series and the threshold-crossing
locator.  Python/NumPy floats are modelled as exact rationals; NumPy
arrays as lists.  The module-level arrays `time` and `temperature` that
the crossing locator reads are modelled by explicit state passing: the
locator takes them as arguments standing for whatever the last
integration run assigned.
-/

namespace RadiativeCooling

/-- Line 11: `T_initial = 600`. -/
def T_initial : ℚ := 600

/-- Line 12: `T_ambient = 300`. -/
def T_ambient : ℚ := 300

/-- Line 13: `emissivity = 0.8`. -/
def emissivity : ℚ := 0.8

/-- Line 14: `surface_area = 0.1`. -/
def surface_area : ℚ := 0.1

/-- Line 15: `mass = 1.0`. -/
def mass : ℚ := 1

/-- Line 16: `specific_heat = 500`. -/
def specific_heat : ℚ := 500

/-- Line 17: `total_time = 4000`. -/
def total_time : ℚ := 4000

/-- Line 18: `time_step = 10`. -/
def time_step : ℚ := 10

/-- Line 21: the Stefan-Boltzmann constant `sigma = 5.67e-8`. -/
def sigma : ℚ := 5.67e-8

/-- Lines 38-42: the ODE right-hand side with the module-level constant
parameters.  `q_rad = sigma * surface_area * emissivity * (T**4 - T_ambient**4)`,
`dT_dt = -q_rad / (mass * specific_heat)`.  The time argument is unused,
exactly as in the source. -/
def temperature_derivative (_t T : ℚ) : ℚ :=
  let q_rad := sigma * surface_area * emissivity * (T ^ 4 - T_ambient ^ 4);
  -q_rad / (mass * specific_heat)

/-- Lines 196-198: the sweep variant taking mass, specific heat and
emissivity as auxiliary arguments:
`dT_dt = -emissivity_v * sigma * surface_area * (T**4 - T_ambient**4) / (mass_v * specific_heat_v)`. -/
def temperature_derivative_2 (_t T mass_v specific_heat_v emissivity_v : ℚ) : ℚ :=
  -emissivity_v * sigma * surface_area * (T ^ 4 - T_ambient ^ 4) / (mass_v * specific_heat_v)

/-- Lines 282-284: the variable-emissivity variant
`dT_dt = -sigma * surface_area * emissivityFunction(T) * (T**4 - T_ambient**4) / (mass * specific_heat)`.
The source's `emissivityFunction` (line 279) is the transcendental real
function `0.992 - 0.35 * exp(-0.0045 * (T - 300))`; the embedding is
parametric in the emissivity function so that it stays exact over ℚ, and
the theorem below quantifies over it. -/
def temperature_derivative_3 (emissivityFunction : ℚ → ℚ) (_t T : ℚ) : ℚ :=
  -sigma * surface_area * emissivityFunction T * (T ^ 4 - T_ambient ^ 4) /
    (mass * specific_heat)

/-- Lines 91-92 of the source: the scan
`for i, T in enumerate(temperature): if T <= target_temp:` — the index of
the first sample whose temperature is at or below the target, if any. -/
def first_cross_index (target : ℚ) : List ℚ → Option ℕ
  | [] => none
  | T :: rest =>
    if T ≤ target then some 0
    else (first_cross_index target rest).map (fun i => i + 1)

/-- Lines 87-100 of the source, `time_to_reach_temperature(target_temp)`.
The Python function takes only the target; it reads the module-level
arrays `time` and `temperature` (whatever the last integration run
assigned them) and the module constants `T_initial` and `T_ambient`.
The embedding passes the two module arrays explicitly; the guard still
compares the target against the fixed module constants, as in the source.
On a found index `i > 0` it returns
`time[i-1] + (temperature[i-1] - target_temp) / dT * dt` with
`dt = time[i] - time[i-1]`, `dT = temperature[i-1] - temperature[i]`;
on index 0 it returns `time[0]`; otherwise `None` (here `none`). -/
def time_to_reach_temperature (time temperature : List ℚ)
    (target_temp : ℚ) : Option ℚ :=
  if T_initial ≤ target_temp ∨ target_temp ≤ T_ambient then none
  else
    match first_cross_index target_temp temperature with
    | some i =>
      if 0 < i then
        let dt := time.getD i 0 - time.getD (i - 1) 0;
        let dT := temperature.getD (i - 1) 0 - temperature.getD i 0;
        some (time.getD (i - 1) 0 +
          (temperature.getD (i - 1) 0 - target_temp) / dT * dt)
      else some (time.getD 0 0)
    | none => none

/-- Lines 82-84 of the source:
`cooling_rate = np.zeros_like(temperature)`,
`cooling_rate[0:-1] = -np.diff(temperature) / np.diff(time)`,
`cooling_rate[-1] = cooling_rate[-2]`.
For a trajectory of length n the first n-1 entries are the finite
differences -(T[i+1] - T[i]) / (t[i+1] - t[i]) and the last entry
replicates the second-to-last. -/
def cooling_rate (time temperature : List ℚ) : List ℚ :=
  let diffs := (List.range (temperature.length - 1)).map
    (fun i => -(temperature.getD (i + 1) 0 - temperature.getD i 0) /
      (time.getD (i + 1) 0 - time.getD i 0));
  diffs ++ [diffs.getD (temperature.length - 2) 0]

/-- Line 46: `np.arange(0, total_time + time_step, time_step)`; NumPy
arange semantics for a positive step: start, start + step, ... while
strictly below the stop value, i.e. ceil((stop - start) / step) points. -/
def arange (start stop step : ℚ) : List ℚ :=
  (List.range (⌈(stop - start) / step⌉).toNat).map
    (fun i => start + i * step)

/-- The inputs the script hands to scipy's solve_ivp (lines 49-56):
initial value, time span, evaluation grid and relative tolerance. -/
structure SolverCall where
  y0 : ℚ
  t0 : ℚ
  t1 : ℚ
  t_eval : List ℚ
  rtol : ℚ

/-- Lines 44-56 of the source: between the parameter block (lines 10-21)
and the solve_ivp call the script only builds the time span and the
evaluation grid; it contains no conditional on the parameters, so every
parameter set — valid or not — flows straight into the solver call.  A
detected-and-reported InvalidParameters outcome would be `none` here;
the source has no branch producing it. -/
def pre_integration (Ti _Ta _e _A _m _c : ℚ) (total step : ℚ) :
    Option SolverCall :=
  some ⟨Ti, 0, total, arange 0 (total + step) step, 1 / 1000000⟩

/-- The shape of scipy's solve_ivp result as used by the script: the
fields the solver reports (success flag, status code) and the fields the
script actually reads (`t` and `y[0]`). -/
structure OdeResult where
  success : Bool
  status : Int
  t : List ℚ
  y0 : List ℚ

/-- Lines 59-60 of the source: `time = solution.t`,
`temperature = solution.y[0]`.  The script reads only the sample arrays
from the solver result; it never inspects `success` or `status`. -/
def extract_solution (solution : OdeResult) : List ℚ × List ℚ :=
  (solution.t, solution.y0)

/-- C1: For every time t and temperature T, each variant of the ODE
derivative function returns exactly
-sigma * A * epsilon(T) * (T^4 - T_ambient^4) / (m * c) with
sigma = 5.67e-8: the constant-emissivity variant with the module
parameters, the sweep variant with mass/specific-heat/emissivity passed
as auxiliary arguments, and the variant whose emissivity is an arbitrary
function of temperature. -/
theorem derivative_formula :
    sigma = 5.67e-8 ∧
    (∀ t T : ℚ, temperature_derivative t T =
      -sigma * surface_area * emissivity * (T ^ 4 - T_ambient ^ 4) /
        (mass * specific_heat)) ∧
    (∀ t T m c e : ℚ, temperature_derivative_2 t T m c e =
      -sigma * surface_area * e * (T ^ 4 - T_ambient ^ 4) / (m * c)) ∧
    (∀ (ef : ℚ → ℚ) (t T : ℚ), temperature_derivative_3 ef t T =
      -sigma * surface_area * ef T * (T ^ 4 - T_ambient ^ 4) /
        (mass * specific_heat)) := by
  refine ⟨rfl, fun t T => ?_, fun t T m c e => ?_, fun ef t T => ?_⟩
  · simp only [temperature_derivative]
    ring
  · simp only [temperature_derivative_2]
    ring
  · rfl

theorem first_cross_index_none_iff (target : ℚ) (temperature : List ℚ) :
    first_cross_index target temperature = none ↔
      ∀ T ∈ temperature, target < T := by
  induction temperature with
  | nil => simp [first_cross_index]
  | cons T rest ih =>
    simp only [first_cross_index]
    by_cases h : T ≤ target
    · rw [if_pos h]
      simp only [List.mem_cons]
      constructor
      · intro hc
        exact absurd hc (by simp)
      · intro hall
        exact absurd (hall T (Or.inl rfl)) (not_lt.mpr h)
    · rw [if_neg h]
      simp only [Option.map_eq_none', ih, List.mem_cons]
      constructor
      · intro hall x hx
        rcases hx with rfl | hx
        · exact lt_of_not_le h
        · exact hall x hx
      · intro hall x hx
        exact hall x (Or.inr hx)

theorem first_cross_index_some_iff (target : ℚ) (temperature : List ℚ)
    (i : ℕ) :
    first_cross_index target temperature = some i ↔
      i < temperature.length ∧ temperature.getD i 0 ≤ target ∧
        ∀ j, j < i → target < temperature.getD j 0 := by
  induction temperature generalizing i with
  | nil => simp [first_cross_index]
  | cons T rest ih =>
    simp only [first_cross_index, List.length_cons]
    by_cases h : T ≤ target
    · rw [if_pos h]
      constructor
      · intro hi
        injection hi with hi
        subst hi
        exact ⟨Nat.succ_pos _, by simpa using h,
          fun j hj => absurd hj (Nat.not_lt_zero j)⟩
      · rintro ⟨hlen, hle, hall⟩
        rcases Nat.eq_zero_or_pos i with rfl | hpos
        · rfl
        · exact absurd h (not_le.mpr (by simpa using hall 0 hpos))
    · rw [if_neg h]
      cases i with
      | zero =>
        simp only [Option.map_eq_some']
        constructor
        · rintro ⟨k, -, hk⟩
          exact absurd hk (Nat.succ_ne_zero k)
        · rintro ⟨-, hle, -⟩
          exact absurd (by simpa using hle) h
      | succ i' =>
        simp only [Option.map_eq_some', List.getD_cons_succ]
        constructor
        · rintro ⟨k, hk, hki⟩
          have hk' : k = i' := Nat.succ_injective hki
          subst hk'
          rcases (ih k).mp hk with ⟨hlen, hle, hall⟩
          refine ⟨Nat.succ_lt_succ hlen, hle, ?_⟩
          intro j hj
          cases j with
          | zero => simpa using lt_of_not_le h
          | succ j' =>
            simpa using hall j' (Nat.lt_of_succ_lt_succ hj)
        · rintro ⟨hlen, hle, hall⟩
          refine ⟨i', (ih i').mpr ⟨Nat.lt_of_succ_lt_succ hlen, hle, ?_⟩, rfl⟩
          intro j hj
          simpa using hall (j + 1) (Nat.succ_lt_succ hj)

/-- C2: if the target lies strictly between the ambient and initial
temperatures and the first index i with temperature[i] ≤ target exists,
the crossing locator returns
t[i-1] + (T[i-1] - target) / (T[i-1] - T[i]) * (t[i] - t[i-1]) when
i > 0, and exactly t[0] (no interpolation) when i = 0. -/
theorem crossing_interpolation (time temperature : List ℚ)
    (target : ℚ) (i : ℕ)
    (h1 : T_ambient < target) (h2 : target < T_initial)
    (hf : first_cross_index target temperature = some i) :
    time_to_reach_temperature time temperature target =
      some (if i = 0 then time.getD 0 0
        else time.getD (i - 1) 0 +
          (temperature.getD (i - 1) 0 - target) /
            (temperature.getD (i - 1) 0 - temperature.getD i 0) *
            (time.getD i 0 - time.getD (i - 1) 0)) := by
  have hg : ¬ (T_initial ≤ target ∨ target ≤ T_ambient) := by
    rintro (hc | hc)
    · exact absurd h2 (not_lt.mpr hc)
    · exact absurd h1 (not_lt.mpr hc)
  simp only [time_to_reach_temperature, if_neg hg, hf]
  rcases Nat.eq_zero_or_pos i with rfl | hpos
  · simp
  · rw [if_pos hpos, if_neg (Nat.pos_iff_ne_zero.mp hpos)]

/-- Witness for C2 on a concrete trajectory: target 550 is first reached
at index 1, and the locator interpolates to time 10. -/
theorem crossing_interpolation_witness :
    time_to_reach_temperature [0, 10, 20] [590, 550, 510] 550 = some 10 := by
  have h := crossing_interpolation [0, 10, 20] [590, 550, 510] 550 1
    (by norm_num [T_ambient]) (by norm_num [T_initial]) (by decide)
  rw [h]
  norm_num [List.getD_cons_zero, List.getD_cons_succ]

/-- C3: the crossing locator returns the None sentinel exactly when the
target is at or above the initial temperature, at or below the ambient
temperature, or no sample of the temperature array is at or below the
target; in every other case it returns a numeric time. -/
theorem crossing_none_iff (time temperature : List ℚ) (target : ℚ) :
    time_to_reach_temperature time temperature target = none ↔
      T_initial ≤ target ∨ target ≤ T_ambient ∨
        ∀ T ∈ temperature, ¬ T ≤ target := by
  unfold time_to_reach_temperature
  by_cases hg : T_initial ≤ target ∨ target ≤ T_ambient
  · rw [if_pos hg]
    constructor
    · intro _
      rcases hg with hc | hc
      · exact Or.inl hc
      · exact Or.inr (Or.inl hc)
    · intro _
      rfl
  · rw [if_neg hg]
    cases hfc : first_cross_index target temperature with
    | none =>
      simp only [hfc]
      constructor
      · intro main
        refine Or.inr (Or.inr ?_)
        intro T hT
        exact not_le.mpr ((first_cross_index_none_iff target temperature).mp hfc T hT)
      · intro main
        trivial
    | some i =>
      simp only [hfc]
      rcases (first_cross_index_some_iff target temperature i).mp hfc with
        ⟨hlen, hle, -⟩
      constructor
      · intro main
        rcases Nat.eq_zero_or_pos i with rfl | hpos
        · rw [if_neg (by simp)] at main
          exact absurd main (by simp)
        · rw [if_pos hpos] at main
          exact absurd main (by simp)
      · rintro (hc | hc | hc)
        · exact absurd hc (fun hcc => hg (Or.inl hcc))
        · exact absurd hc (fun hcc => hg (Or.inr hcc))
        · rw [List.getD_eq_getElem temperature 0 hlen] at hle
          exact absurd hle (hc _ (List.getElem_mem hlen))

/-- C4: at a first crossing index i > 0 the interpolation divisor
T[i-1] - T[i] is strictly positive — T[i-1] is strictly above the target
while T[i] is at or below it — so a zero-slope segment at the first
crossing is impossible and the locator never divides by zero. -/
theorem no_zero_slope_at_first_cross (temperature : List ℚ)
    (target : ℚ) (i : ℕ)
    (hf : first_cross_index target temperature = some i) (hi : 0 < i) :
    temperature.getD i 0 ≤ target ∧
      target < temperature.getD (i - 1) 0 ∧
      0 < temperature.getD (i - 1) 0 - temperature.getD i 0 := by
  rcases (first_cross_index_some_iff target temperature i).mp hf with
    ⟨hlen, hle, hall⟩
  have hprev : target < temperature.getD (i - 1) 0 :=
    hall (i - 1) (Nat.pred_lt (Nat.pos_iff_ne_zero.mp hi))
  exact ⟨hle, hprev, sub_pos.mpr (lt_of_le_of_lt hle hprev)⟩

/-- Witness for C4: on the trajectory [590, 550, 510] with target 560 the
first crossing is at index 1 and the divisor 590 - 550 is positive. -/
theorem no_zero_slope_at_first_cross_witness :
    List.getD [(590 : ℚ), 550, 510] 1 0 ≤ 560 ∧
      (560 : ℚ) < List.getD [(590 : ℚ), 550, 510] 0 0 ∧
      (0 : ℚ) < List.getD [(590 : ℚ), 550, 510] 0 0 -
        List.getD [(590 : ℚ), 550, 510] 1 0 := by
  have h := no_zero_slope_at_first_cross [590, 550, 510] 560 1
    (by decide) (by decide)
  simpa using h

/-- Counterexample for C5: on any trajectory produced by the integrator
the first sample temperature equals the initial condition T_initial = 600
(here the trajectory [600, 550] at times [0, 10]); feeding it back as the
target trips the boundary guard target >= T_initial, so the locator
returns None instead of the first sample time 0. -/
theorem round_trip_first_sample_cex :
    time_to_reach_temperature [0, 10] [600, 550] 600 ≠ some 0 := by
  have h : time_to_reach_temperature [0, 10] [600, 550] 600 = none := by
    unfold time_to_reach_temperature
    rw [if_pos (Or.inl (by norm_num [T_initial]))]
  rw [h]
  simp

/-- C5 (amended): for a strictly decreasing trajectory that starts at
T_initial = 600 and stays above 300 — the shape the integrator produces —
feeding the last sample temperature as target returns the last sample
time exactly, while feeding the first sample temperature returns None
because of the boundary guard target >= T_initial. -/
theorem round_trip_last_sample (time temps : List ℚ)
    (h2 : 2 ≤ temps.length) (hlen : temps.length = time.length)
    (hdec : temps.Chain' (· > ·))
    (hhead : temps.getD 0 0 = 600)
    (hlast : 300 < temps.getD (temps.length - 1) 0) :
    time_to_reach_temperature time temps (temps.getD 0 0) = none ∧
      time_to_reach_temperature time temps
          (temps.getD (temps.length - 1) 0) =
        some (time.getD (time.length - 1) 0) := by
  have hpair := List.chain'_iff_pairwise.mp hdec
  have hij : ∀ i j, ∀ hi : i < temps.length, ∀ hj : j < temps.length,
      i < j → temps.getD j 0 < temps.getD i 0 := by
    intro i j hi hj hij
    rw [List.getD_eq_getElem temps 0 hi, List.getD_eq_getElem temps 0 hj]
    exact List.pairwise_iff_getElem.mp hpair i j hi hj hij
  constructor
  · rw [hhead]
    unfold time_to_reach_temperature
    rw [if_pos (Or.inl (by norm_num [T_initial]))]
  · set n := temps.length with hn
    have hn1 : n - 1 < n := by omega
    have hn2 : n - 1 - 1 < n := by omega
    have h0 : (0 : ℕ) < n := by omega
    have hlt : temps.getD (n - 1) 0 < 600 :=
      hhead ▸ hij 0 (n - 1) h0 hn1 (by omega)
    have hg : ¬ (T_initial ≤ temps.getD (n - 1) 0 ∨
        temps.getD (n - 1) 0 ≤ T_ambient) := by
      rintro (hc | hc)
      · exact absurd hlt (not_lt.mpr (by simpa [T_initial] using hc))
      · exact absurd hlast (not_lt.mpr (by simpa [T_ambient] using hc))
    have hfc : first_cross_index (temps.getD (n - 1) 0) temps =
        some (n - 1) := by
      rw [first_cross_index_some_iff]
      refine ⟨hn1, le_refl _, ?_⟩
      intro j hj
      exact hij j (n - 1) (by omega) hn1 hj
    have hdne : temps.getD (n - 1 - 1) 0 - temps.getD (n - 1) 0 ≠ 0 :=
      ne_of_gt (sub_pos.mpr (hij (n - 1 - 1) (n - 1) hn2 hn1 (by omega)))
    simp only [time_to_reach_temperature, if_neg hg, hfc]
    rw [if_pos (by omega : 0 < n - 1)]
    rw [← hlen]
    congr 1
    rw [div_self hdne]
    ring

/-- Witness for the amended C5 on the concrete trajectory [600, 400] at
times [0, 10]: target 600 gives None, target 400 gives time 10. -/
theorem round_trip_last_sample_witness :
    time_to_reach_temperature [0, 10] [600, 400] 600 = none ∧
      time_to_reach_temperature [0, 10] [600, 400] 400 = some 10 := by
  have h := round_trip_last_sample [0, 10] [600, 400] (by simp) (by simp)
    (by norm_num [List.chain'_cons, List.chain'_singleton]) (by decide)
    (by decide)
  simpa using h

/-- C6: for a trajectory of length n >= 2 the cooling-rate series has
length exactly n, each of the first n-1 entries is the finite difference
-(T[i+1] - T[i]) / (t[i+1] - t[i]) between consecutive samples, and the
last entry replicates the second-to-last, so the final two entries are
identical. -/
theorem cooling_rate_spec (time temperature : List ℚ)
    (h2 : 2 ≤ temperature.length) :
    (cooling_rate time temperature).length = temperature.length ∧
      (∀ i, i < temperature.length - 1 →
        (cooling_rate time temperature).getD i 0 =
          -(temperature.getD (i + 1) 0 - temperature.getD i 0) /
            (time.getD (i + 1) 0 - time.getD i 0)) ∧
      (cooling_rate time temperature).getD (temperature.length - 1) 0 =
        (cooling_rate time temperature).getD (temperature.length - 2) 0 := by
  set n := temperature.length with hn
  set f : ℕ → ℚ := fun i =>
    -(temperature.getD (i + 1) 0 - temperature.getD i 0) /
      (time.getD (i + 1) 0 - time.getD i 0) with hf
  set diffs := (List.range (n - 1)).map f with hdiffs
  have hcr : cooling_rate time temperature =
      diffs ++ [diffs.getD (n - 2) 0] := rfl
  have hdlen : diffs.length = n - 1 := by
    rw [hdiffs, List.length_map, List.length_range]
  have hget : ∀ i, i < n - 1 → diffs.getD i 0 = f i := by
    intro i hi
    rw [hdiffs, List.getD_eq_getElem _ _
      (by simpa [List.length_map, List.length_range] using hi)]
    simp [List.getElem_map, List.getElem_range]
  refine ⟨?_, ?_, ?_⟩
  · rw [hcr, List.length_append, hdlen]
    simp
    omega
  · intro i hi
    rw [hcr, List.getD_append _ _ _ i (by omega)]
    exact hget i hi
  · rw [hcr, List.getD_append_right _ _ _ (n - 1) (by omega),
      List.getD_append _ _ _ (n - 2) (by omega), hdlen]
    have hz : n - 1 - (n - 1) = 0 := by omega
    rw [hz, List.getD_cons_zero]

/-- Witness for C6 on the trajectory [600, 500, 450] at times
[0, 10, 20]: the series has length 3 and its last two entries agree. -/
theorem cooling_rate_spec_witness :
    (cooling_rate [0, 10, 20] [600, 500, 450]).length = 3 ∧
      (cooling_rate [0, 10, 20] [600, 500, 450]).getD 2 0 =
        (cooling_rate [0, 10, 20] [600, 500, 450]).getD 1 0 := by
  have h := cooling_rate_spec [0, 10, 20] [600, 500, 450] (by simp)
  exact ⟨by simpa using h.1, by simpa using h.2.2⟩

/-- Counterexample for C7: with mass -1 (a non-positive, invalid value)
the script still proceeds to the solver call instead of reporting
InvalidParameters (which would be None in the embedding): there is no
validation anywhere between the parameter block and the solve_ivp call. -/
theorem no_invalid_parameters_cex :
    pre_integration 600 300 (4 / 5) (1 / 10) (-1) 500 4000 10 ≠ none := by
  simp [pre_integration]

/-- C7 (amended): the program performs no parameter validation: for every
parameter set, including every invalid one (non-positive mass, specific
heat or surface area, or ambient at or above initial), it builds the
solver inputs and proceeds to integrate; no InvalidParameters outcome is
ever produced. -/
theorem no_parameter_validation (Ti Ta e A m c total step : ℚ)
    (hinv : m ≤ 0 ∨ c ≤ 0 ∨ A ≤ 0 ∨ Ti ≤ Ta) :
    pre_integration Ti Ta e A m c total step ≠ none := by
  simp [pre_integration]

/-- Witness for the amended C7: a parameter set with non-positive
specific heat is still sent to the solver. -/
theorem no_parameter_validation_witness :
    pre_integration 600 300 (4 / 5) (1 / 10) 1 (-500) 4000 10 ≠ none :=
  no_parameter_validation 600 300 (4 / 5) (1 / 10) 1 (-500) 4000 10
    (Or.inr (Or.inl (by norm_num)))

/-- Counterexample for C8: a failed solver run (success = false,
status = -1, truncated arrays) is extracted to exactly the same numeric
trajectory as a successful run with the same arrays — the partial data
is returned silently; nothing distinct is surfaced. -/
theorem integration_failure_cex :
    extract_solution ⟨false, -1, [0, 10], [600, 590]⟩ =
        extract_solution ⟨true, 0, [0, 10], [600, 590]⟩ ∧
      extract_solution ⟨false, -1, [0, 10], [600, 590]⟩ =
        ([0, 10], [600, 590]) :=
  ⟨rfl, rfl⟩

/-- C8 (amended): the script never inspects the solver result's success
or status fields; even for a failed run it unconditionally extracts t and
y[0] as the trajectory, so an integration failure is returned as a
partial/degraded trajectory rather than surfaced as a distinct failure. -/
theorem extraction_ignores_solver_status (solution : OdeResult)
    (hfail : solution.success = false) :
    extract_solution solution = (solution.t, solution.y0) := rfl

/-- Witness for the amended C8 on a concrete failed solver result. -/
theorem extraction_ignores_solver_status_witness :
    extract_solution ⟨false, -1, [0, 10, 20], [600, 580, 570]⟩ =
      ([0, 10, 20], [600, 580, 570]) :=
  extraction_ignores_solver_status
    ⟨false, -1, [0, 10, 20], [600, 580, 570]⟩ rfl

/-- C10: the crossing locator is a function of the target and of the
module-level time/temperature arrays (passed here explicitly as the
module state), with the boundary guard fixed to the module constants
T_initial = 600 and T_ambient = 300: whenever the target is at or above
600 or at or below 300 it returns None for every pair of arrays,
including arrays holding a sweep trajectory from different parameters. -/
theorem crossing_guard_uses_module_constants :
    T_initial = 600 ∧ T_ambient = 300 ∧
      ∀ (time temperature : List ℚ) (target : ℚ),
        600 ≤ target ∨ target ≤ 300 →
          time_to_reach_temperature time temperature target = none := by
  refine ⟨rfl, rfl, ?_⟩
  intro time temperature target hg
  unfold time_to_reach_temperature
  rw [if_pos (by simpa [T_initial, T_ambient] using hg)]

/-- Witness for C10: arrays holding a hypothetical trajectory from 700
down to 640, with target 650 strictly inside that trajectory's own range,
still give None because the guard compares against 600. -/
theorem crossing_guard_uses_module_constants_witness :
    time_to_reach_temperature [0, 10] [700, 640] 650 = none :=
  crossing_guard_uses_module_constants.2.2 [0, 10] [700, 640] 650
    (Or.inl (by norm_num))

end RadiativeCooling
